import Mathlib

/-
Verification of the UIQA run-orchestration backend.

The definitions below are a shallow embedding of the Python sources:
  backend/app/worker.py            (orchestrator, fallback triage, normalization)
  backend/app/services/playwright_runner.py  (process lifecycle manager)
  backend/app/services/worker_manager.py     (worker lifecycle manager)
  backend/app/services/github_client.py      (issue filing collaborator)
  backend/app/events.py, backend/app/main.py (event bus endpoints)

External effects (subprocess execution, HTTP calls, the analysis adapter,
file IO) are modelled as oracle inputs carried in environment records; the
control flow, data flow and state updates of the Python code are translated
directly.  Machine-level hashing (hashlib.sha1) is embedded as a full SHA-1
implementation over Nat arithmetic mod 2^32.
-/

/-! ## SHA-1 (hashlib.sha1, used for bug_id in worker.py line 156) -/

/-- UTF-8 encoding of one Unicode scalar value, as a list of byte values. -/
def utf8Char (c : Char) : List Nat :=
  let n := c.toNat
  if n < 128 then [n]
  else if n < 2048 then
    [192 ||| (n >>> 6), 128 ||| (n &&& 63)]
  else if n < 65536 then
    [224 ||| (n >>> 12), 128 ||| ((n >>> 6) &&& 63), 128 ||| (n &&& 63)]
  else
    [240 ||| (n >>> 18), 128 ||| ((n >>> 12) &&& 63),
     128 ||| ((n >>> 6) &&& 63), 128 ||| (n &&& 63)]

/-- UTF-8 encoding of a string (Python str.encode of worker.py line 156). -/
def utf8Bytes (s : String) : List Nat :=
  s.data.flatMap utf8Char

/-- Big-endian 8-byte encoding of a natural number (SHA-1 length field). -/
def beBytes8 (n : Nat) : List Nat :=
  [(n >>> 56) &&& 255, (n >>> 48) &&& 255, (n >>> 40) &&& 255, (n >>> 32) &&& 255,
   (n >>> 24) &&& 255, (n >>> 16) &&& 255, (n >>> 8) &&& 255, n &&& 255]

/-- SHA-1 message padding: append 0x80, zero bytes to 56 mod 64, then the
bit length as a big-endian 64-bit integer. -/
def sha1Pad (msg : List Nat) : List Nat :=
  let padZeros := (119 - msg.length % 64) % 64
  msg ++ [128] ++ List.replicate padZeros 0 ++ beBytes8 (msg.length * 8)

/-- Split a byte list into 64-byte blocks. -/
def chunks64 (l : List Nat) : List (List Nat) :=
  if h : l = [] then []
  else l.take 64 :: chunks64 (l.drop 64)
termination_by l.length
decreasing_by
  simp only [List.length_drop]
  have : 0 < l.length := List.length_pos.mpr h
  omega

/-- Group bytes into big-endian 32-bit words. -/
def bytesToWords : List Nat → List Nat
  | a :: b :: c :: d :: rest =>
      ((((a <<< 8) ||| b) <<< 8 ||| c) <<< 8 ||| d) :: bytesToWords rest
  | _ => []

/-- Rotate a 32-bit word left by n bits. -/
def rotl (n k : Nat) : Nat :=
  ((k <<< n) ||| (k >>> (32 - n))) % 4294967296

/-- Message-schedule extension: repeatedly append
rotl1 of w[i-3] xor w[i-8] xor w[i-14] xor w[i-16]. -/
def sha1Extend : Nat → List Nat → List Nat
  | 0, w => w
  | fuel + 1, w =>
      let i := w.length
      let x := rotl 1 ((w.getD (i - 3) 0) ^^^ (w.getD (i - 8) 0) ^^^
                       (w.getD (i - 14) 0) ^^^ (w.getD (i - 16) 0))
      sha1Extend fuel (w ++ [x])

/-- SHA-1 round function for round t. -/
def sha1F (t b c d : Nat) : Nat :=
  if t < 20 then (b &&& c) ||| ((b ^^^ 4294967295) &&& d)
  else if t < 40 then b ^^^ c ^^^ d
  else if t < 60 then (b &&& c) ||| (b &&& d) ||| (c &&& d)
  else b ^^^ c ^^^ d

/-- SHA-1 round constant for round t. -/
def sha1K (t : Nat) : Nat :=
  if t < 20 then 1518500249
  else if t < 40 then 1859775393
  else if t < 60 then 2400959708
  else 3395469782

/-- The 80 SHA-1 rounds over one block schedule. -/
def sha1Rounds : Nat → List Nat → Nat × Nat × Nat × Nat × Nat → Nat → Nat × Nat × Nat × Nat × Nat
  | 0, _, st, _ => st
  | fuel + 1, w, (a, b, c, d, e), t =>
      let temp := (rotl 5 a + sha1F t b c d + e + sha1K t + w.getD t 0) % 4294967296
      sha1Rounds fuel w (temp, a, rotl 30 b, c, d) (t + 1)

/-- Process one 64-byte block, updating the five-word state. -/
def sha1Block (h : Nat × Nat × Nat × Nat × Nat) (block : List Nat) :
    Nat × Nat × Nat × Nat × Nat :=
  let w := sha1Extend 64 (bytesToWords block)
  let r := sha1Rounds 80 w h 0
  ((h.1 + r.1) % 4294967296,
   (h.2.1 + r.2.1) % 4294967296,
   (h.2.2.1 + r.2.2.1) % 4294967296,
   (h.2.2.2.1 + r.2.2.2.1) % 4294967296,
   (h.2.2.2.2 + r.2.2.2.2) % 4294967296)

/-- SHA-1 digest of a byte sequence as five 32-bit words. -/
def sha1Words (msg : List Nat) : List Nat :=
  let t := (chunks64 (sha1Pad msg)).foldl sha1Block
    (1732584193, 4023233417, 2562383102, 271733878, 3285377520)
  [t.1, t.2.1, t.2.2.1, t.2.2.2.1, t.2.2.2.2]

/-- Lowercase hexadecimal digit. -/
def hexDigit (n : Nat) : Char :=
  if n < 10 then Char.ofNat (48 + n) else Char.ofNat (87 + n)

/-- Eight lowercase hex characters of a 32-bit word. -/
def word32Hex (w : Nat) : List Char :=
  [hexDigit ((w >>> 28) &&& 15), hexDigit ((w >>> 24) &&& 15),
   hexDigit ((w >>> 20) &&& 15), hexDigit ((w >>> 16) &&& 15),
   hexDigit ((w >>> 12) &&& 15), hexDigit ((w >>> 8) &&& 15),
   hexDigit ((w >>> 4) &&& 15), hexDigit (w &&& 15)]

/-- Hexadecimal SHA-1 digest of a byte sequence (40 characters). -/
def sha1HexChars (msg : List Nat) : List Char :=
  (sha1Words msg).flatMap word32Hex

/-- hashlib.sha1 hexdigest truncated to 12 characters, applied to the
UTF-8 bytes of a string (worker.py line 156). -/
def shortHash (s : String) : String :=
  String.mk ((sha1HexChars (utf8Bytes s)).take 12)

/-! ## Playwright report shape and the fallback extractor
    (worker.py, _extract_bugs_from_playwright_json, lines 32-67) -/

/-- One attachment entry of a Playwright result. -/
structure PWAttachment where
  path : Option String
deriving DecidableEq

/-- One entry of the errors array of a Playwright result. -/
structure PWError where
  message : Option String
deriving DecidableEq

/-- One Playwright test result: status, optional error.message, errors
array and attachments, exactly the keys read by the fallback extractor. -/
structure PWResult where
  stat : Option String
  errorMessage : Option String
  errors : List PWError
  attachments : List PWAttachment
deriving DecidableEq

/-- One Playwright test with its results. -/
structure PWTest where
  title : Option String
  results : List PWResult
deriving DecidableEq

/-- One Playwright spec with its tests. -/
structure PWSpec where
  title : Option String
  file : Option String
  tests : List PWTest
deriving DecidableEq

/-- One top-level Playwright suite with its specs. -/
structure PWSuite where
  specs : List PWSpec
deriving DecidableEq

/-- The parsed Playwright JSON report as read by the fallback extractor:
only the top-level suites array is walked. -/
structure Report where
  suites : List PWSuite
deriving DecidableEq

/-- A raw bug dict as produced by the triage adapter or by the fallback
extractor, before normalization (worker.py lines 154-175 reads these keys).
List-or-scalar valued fields are a sum type mirroring the isinstance
checks. -/
structure TriageBug where
  title : Option String
  severity : Option String
  suiteField : Option String
  expected : Option String
  actual : Option String
  reproSteps : Option (List String ⊕ String)
  evidencePaths : Option (List String ⊕ String)
  suggestedFix : Option String
  componentGuess : Option String
  confidence : Option Nat
deriving DecidableEq

/-- Python slicing s[:n] by characters. -/
def strTake (s : String) (n : Nat) : String :=
  String.mk (s.data.take n)

/-- Status check of worker.py line 45: status in (failed, timedOut). -/
def isFailedStatus (r : PWResult) : Bool :=
  r.stat == some "failed" || r.stat == some "timedOut"

/-- First error message of a result, worker.py lines 47-51: the
error.message field when truthy, else the message of the first entry of
errors, else the empty string. -/
def firstErrorMsg (r : PWResult) : String :=
  match r.errorMessage with
  | some m => if m = "" then firstErrorsEntry r.errors else m
  | none => firstErrorsEntry r.errors
where
  firstErrorsEntry : List PWError → String
  | [] => ""
  | e :: _ => e.message.getD ""

/-- The bug dict synthesized for one failed or timed-out result,
worker.py lines 53-64. -/
def mkFallbackBug (suite : String) (sp : PWSpec) (t : PWTest) (r : PWResult) : TriageBug :=
  let errorMsg := firstErrorMsg r
  let title := (sp.title.getD "Unknown test") ++ " - " ++ (t.title.getD "")
  { title := some (strTake title 200),
    severity := some "major",
    suiteField := some suite,
    expected := some "Test should pass",
    actual := some (if errorMsg = ""
      then "Test " ++ (r.stat.getD "failed")
      else strTake errorMsg 500),
    reproSteps := some (Sum.inl ["Run test: " ++ title]),
    evidencePaths := some (Sum.inl (r.attachments.filterMap fun a =>
      match a.path with
      | some p => if p = "" then none else some p
      | none => none)),
    suggestedFix := some "Review the test failure and fix the underlying issue",
    componentGuess := some (sp.file.getD ""),
    confidence := none }

/-- Fallback extractor, worker.py lines 32-67: walk suites, specs, tests,
results; emit one bug per failed or timed-out result.  A missing or
unparsable results file yields the empty list (the enclosing try swallows
the error and returns the bugs collected so far, none on a parse failure). -/
def extractBugs (report : Option Report) (suite : String) : List TriageBug :=
  match report with
  | none => []
  | some data =>
    data.suites.flatMap fun su =>
      su.specs.flatMap fun sp =>
        sp.tests.flatMap fun t =>
          t.results.filterMap fun r =>
            if isFailedStatus r then some (mkFallbackBug suite sp t r) else none

/-- Number of failed or timed-out results of a report. -/
def countFailedResults (data : Report) : Nat :=
  (data.suites.map fun su =>
    (su.specs.map fun sp =>
      (sp.tests.map fun t =>
        (t.results.filter isFailedStatus).length).sum).sum).sum

/-! ## Normalization of triage output (worker.py lines 154-175) -/

/-- A normalized bug record as built by the orchestrator before
persistence. -/
structure NBug where
  bugId : String
  testType : String
  workflow : String
  severity : String
  title : String
  expected : String
  actual : String
  reproSteps : String
  pageUrl : String
  consoleErrors : String
  networkFailures : String
  tracePath : String
  screenshotPath : String
  videoPath : String
  suspectedRootCause : String
  codeLocationGuess : String
  confidence : Nat
deriving DecidableEq

/-- repro_steps flattening, worker.py line 165: a list is kept, any other
value v becomes the one-element list str(v), an absent key behaves as the
one-element list holding the empty string. -/
def reproList (b : TriageBug) : List String :=
  match b.reproSteps with
  | some (Sum.inl xs) => xs
  | some (Sum.inr s) => [s]
  | none => [""]

/-- evidence_paths flattening, worker.py line 169: a list is kept, any
non-list (or absent) value becomes the empty list. -/
def evidenceList (b : TriageBug) : List String :=
  match b.evidencePaths with
  | some (Sum.inl xs) => xs
  | _ => []

/-- Python default whitespace for str.strip: space, tab, newline,
carriage return, vertical tab, form feed. -/
def isPySpace (c : Char) : Bool :=
  c.toNat = 32 || c.toNat = 9 || c.toNat = 10 || c.toNat = 13 ||
    c.toNat = 11 || c.toNat = 12

/-- Python str.strip: drop whitespace from both ends. -/
def pyStrip (s : String) : String :=
  String.mk (((s.data.dropWhile isPySpace).reverse.dropWhile isPySpace).reverse)

/-- Normalized title, worker.py line 155: the stripped title or the
default placeholder when blank. -/
def normTitle (suite : String) (b : TriageBug) : String :=
  let t0 := pyStrip (b.title.getD "")
  if t0 = "" then "UI test failure (" ++ suite ++ ")" else t0

/-- Normalization of one raw bug, worker.py lines 154-175: stable hashed
bug_id over suite and normalized title, newline-joined lists, severity
defaulted to major, confidence set to 70. -/
def normalizeBug (suite : String) (b : TriageBug) : NBug :=
  let title := normTitle suite b
  { bugId := shortHash (suite ++ ":" ++ title),
    testType := suite,
    workflow := "",
    severity := b.severity.getD "major",
    title := title,
    expected := b.expected.getD "",
    actual := b.actual.getD "",
    reproSteps := String.intercalate "\n" (reproList b),
    pageUrl := "",
    consoleErrors := "",
    networkFailures := "",
    tracePath := String.intercalate "\n" (evidenceList b),
    screenshotPath := "",
    videoPath := "",
    suspectedRootCause := b.suggestedFix.getD "",
    codeLocationGuess := b.componentGuess.getD "",
    confidence := 70 }

/-- Modelled from the spec: the fixed four-level severity taxonomy of
section 3 (blocker, critical or high, major or medium, minor or low), used
to compare the normalization of the source against the claim that severity
strings are mapped into it. -/
def specSeverityTaxonomy : List String :=
  ["blocker", "critical", "high", "major", "medium", "minor", "low"]

/-! ## Orchestrator data model (models.py, worker.py _process_run) -/

/-- A Python exception reaching the orchestrator, split by the two except
clauses of worker.py lines 238-252: subprocess.CalledProcessError versus
any other Exception, each carrying its str() text. -/
inductive Exn
  | calledProcess (msg : String)
  | other (msg : String)
deriving DecidableEq

/-- A persisted Run row (models.py Run). -/
structure RunRow where
  id : String
  stat : String
  createdAt : Nat
  startedAt : Option Nat
  finishedAt : Option Nat
  repoUrl : String
  branch : String
  appDir : String
  uiDir : String
  suiteSel : String
  createGithubIssues : Bool
  commitResults : Bool
  summarySuites : Option (List (String × Bool × Int))
  summaryBugs : Option Nat
  errorMessage : Option String
deriving DecidableEq

/-- A persisted Bug row (models.py Bug): the normalized record plus the
owning run and the optional issue URL attached after filing. -/
structure BugRow where
  runId : String
  bug : NBug
  githubIssueUrl : Option String
deriving DecidableEq

/-- A persisted Artifact row (models.py Artifact). -/
structure ArtifactRow where
  runId : String
  type : String
  path : String
deriving DecidableEq

/-- A persisted IssueRef row (models.py IssueRef). -/
structure IssueRow where
  runId : String
  bugId : String
  issueUrl : String
deriving DecidableEq

/-- The persisted state touched by the orchestrator. -/
structure DB where
  runs : List RunRow
  bugs : List BugRow
  artifacts : List ArtifactRow
  issues : List IssueRow
deriving DecidableEq

/-- db.query(Run).filter(Run.id == run_id).first() -/
def findRun (db : DB) (runId : String) : Option RunRow :=
  db.runs.find? fun r => r.id == runId

/-- Committing a mutated Run ORM object: every row with the same id takes
the new value. -/
def updateRun (db : DB) (r : RunRow) : DB :=
  { db with runs := db.runs.map fun x => if x.id == r.id then r else x }

/-- The result of one PlaywrightRunner.run_suite call as consumed by the
orchestrator: suite name, ok flag, exit code, and the parsed contents of
the results JSON file (none when missing or unparsable). -/
structure SuiteRes where
  suite : String
  ok : Bool
  exitCode : Int
  report : Option Report
deriving DecidableEq

/-- github_client.IssueResult. -/
structure IssueResult where
  created : Bool
  url : String
deriving DecidableEq

/-- One event published on the bus (events.py): step events carry the step
name, a status string and optional extra payload fields; log events carry
level, optional step and message. -/
inductive StepExtra
  | okExit (ok : Bool) (exitCode : Int)
  | bugCount (n : Nat)
  | issuesCreated (n : Nat)
  | statusOf (s : String)
deriving DecidableEq

/-- An event frame published with publish_step or publish_log. -/
inductive Event
  | step (name : String) (stat : String) (extra : Option StepExtra)
  | log (level : String) (stepName : Option String) (message : String)
deriving DecidableEq

/-- The analysis adapter response as far as the orchestrator observes it:
the repr of its start section (used in a log line).  Workflows and
selector strategy are forwarded opaquely to the generation call. -/
structure Analysis where
  startRepr : String
deriving DecidableEq

/-- Oracle for every external effect of one _process_run invocation:
wall-clock instants, the outcome of each fallible call, and the traceback
text rendered by the generic except clause. -/
structure Env where
  tStart : Nat
  tFinish : Nat
  cloneExn : Option Exn
  analyze : Except Exn Analysis
  generate : Except Exn Nat
  runSmoke : Except Exn SuiteRes
  runRegression : Except Exn SuiteRes
  triage : String → Except Exn (List TriageBug)
  csvExn : Option Exn
  fileIssue : NBug → Except Exn IssueResult
  traceback : String

/-- The run object right after worker.py lines 86-88: status running,
started_at set. -/
def mkRunning (env : Env) (run : RunRow) : RunRow :=
  { run with stat := "running", startedAt := some env.tStart }

/-- Log line of worker.py line 100. -/
def cloneMsg (run : RunRow) : String :=
  "Cloning " ++ run.repoUrl ++ " (branch " ++ run.branch ++ ")..."

/-- Error message recorded by the except clauses, worker.py lines 241 and
249: command failures keep the command context, any other exception gets
the full traceback appended. -/
def errMsgOf (env : Env) (e : Exn) : String :=
  match e with
  | .calledProcess m => "Command failed: " ++ m
  | .other m => m ++ "\n\nTraceback:\n" ++ env.traceback

/-- str(e) of an exception, used in the triage log line. -/
def exnStr (e : Exn) : String :=
  match e with
  | .calledProcess m => m
  | .other m => m

/-! ## Orchestrator phases (worker.py _process_run, lines 81-252) -/

/-- Suite execution, worker.py lines 120-132: run smoke and regression as
selected, emitting start and finish step events; a raised error aborts
with the events emitted so far. -/
def suitesPhase (env : Env) (suiteSel : String) :
    Except (List Event × Exn) (List SuiteRes × List Event) :=
  let smokeStep :=
    if suiteSel = "smoke" ∨ suiteSel = "both" then
      match env.runSmoke with
      | .error e => Except.error ([Event.step "run_smoke" "started" none], e)
      | .ok sr => Except.ok ([sr],
          [Event.step "run_smoke" "started" none,
           Event.step "run_smoke" "finished" (some (.okExit sr.ok sr.exitCode))])
    else Except.ok ([], [])
  match smokeStep with
  | .error r => .error r
  | .ok (srs1, evs1) =>
    if suiteSel = "regression" ∨ suiteSel = "both" then
      match env.runRegression with
      | .error e => .error (evs1 ++ [Event.step "run_regression" "started" none], e)
      | .ok rr => .ok (srs1 ++ [rr],
          evs1 ++ [Event.step "run_regression" "started" none,
                   Event.step "run_regression" "finished" (some (.okExit rr.ok rr.exitCode))])
    else .ok (srs1, evs1)

/-- Triage of one suite result, worker.py lines 137-175: ok suites are
skipped; the adapter triage call is tried first and a raised error is
caught and logged; an empty bug list falls back to the structural
extractor; every raw bug is then normalized. -/
def triageSuite (env : Env) (sr : SuiteRes) : List NBug × List Event :=
  if sr.ok then ([], [])
  else
    let first :=
      match env.triage sr.suite with
      | .ok bs => (bs, ([] : List Event))
      | .error e => ([], [Event.log "info" (some "triage")
          ("Claude Code triage failed: " ++ exnStr e)])
    let second :=
      if first.1.isEmpty then
        (extractBugs sr.report sr.suite,
         first.2 ++ [Event.log "info" (some "triage")
           ("Using fallback bug extraction for " ++ sr.suite)])
      else first
    ((second.1.map (normalizeBug sr.suite)), second.2)

/-- Triage over all suite results in order. -/
def triagePhase (env : Env) (srs : List SuiteRes) : List NBug × List Event :=
  srs.foldl (fun acc sr =>
    let r := triageSuite env sr
    (acc.1 ++ r.1, acc.2 ++ r.2)) ([], [])

/-- Steps clone through triage, worker.py lines 99-177: each external call
either succeeds or aborts the phase with the exception and the events
emitted so far. -/
def phase1 (env : Env) (run1 : RunRow) :
    Except (List Event × Exn) (List SuiteRes × List NBug × List Event) :=
  let evs0 := [Event.step "clone_repo" "started" none,
               Event.log "info" (some "clone_repo") (cloneMsg run1)]
  match env.cloneExn with
  | some e => .error (evs0, e)
  | none =>
    let evs1 := evs0 ++ [Event.step "clone_repo" "finished" none,
                         Event.step "analyze_repo" "started" none]
    match env.analyze with
    | .error e => .error (evs1, e)
    | .ok an =>
      let evs2 := evs1 ++
        [Event.log "info" (some "analyze_repo") ("Detected start: " ++ an.startRepr),
         Event.step "analyze_repo" "finished" none,
         Event.step "generate_tests_docs" "started" none]
      match env.generate with
      | .error e => .error (evs2, e)
      | .ok nFiles =>
        let evs3 := evs2 ++
          [Event.log "info" (some "generate_tests_docs")
             ("Generated files: " ++ toString nFiles),
           Event.step "generate_tests_docs" "finished" none]
        match suitesPhase env run1.suiteSel with
        | .error (evs', e) => .error (evs3 ++ evs', e)
        | .ok (srs, evs') =>
          let tp := triagePhase env srs
          let evs4 := evs3 ++ evs' ++ [Event.step "triage" "started" none] ++ tp.2 ++
            [Event.log "info" (some "triage")
               ("Triage produced " ++ toString tp.1.length ++ " bugs."),
             Event.step "triage" "finished" (some (.bugCount tp.1.length))]
          .ok (srs, tp.1, evs4)

/-- Persisting the normalized bugs, worker.py lines 180-201. -/
def addBugs (db : DB) (runId : String) (bugs : List NBug) : DB :=
  { db with bugs := db.bugs ++ bugs.map fun b =>
      { runId := runId, bug := b, githubIssueUrl := none } }

/-- Registering the CSV artifact, worker.py lines 203-206. -/
def addArtifact (db : DB) (runId : String) : DB :=
  { db with artifacts := db.artifacts ++
      [{ runId := runId, type := "csv", path := "artifacts/" ++ runId ++ "/bugs.csv" }] }

/-- Replace the first list element satisfying p by f applied to it. -/
def setFirst (p : α → Bool) (f : α → α) : List α → List α
  | [] => []
  | x :: xs => if p x then f x :: xs else x :: setFirst p f xs

/-- Attaching a filed issue URL, worker.py lines 219-223: the first Bug
row of the run with this bug_id gets the URL and an IssueRef is added. -/
def attachIssue (db : DB) (runId bugId url : String) : DB :=
  { db with
    bugs := setFirst (fun b => b.runId == runId && b.bug.bugId == bugId)
      (fun b => { b with githubIssueUrl := some url }) db.bugs,
    issues := db.issues ++ [{ runId := runId, bugId := bugId, issueUrl := url }] }

/-- The issue-filing loop body, worker.py lines 213-224: one call per bug
in order, counted and persisted when a URL comes back; a raised error
aborts the loop with the state committed so far. -/
def fileLoop (env : Env) (runId : String) :
    DB → List NBug → Nat → Except (DB × Exn) (DB × Nat)
  | db, [], created => .ok (db, created)
  | db, b :: rest, created =>
    match env.fileIssue b with
    | .error e => .error (db, e)
    | .ok res =>
      if res.url = "" then fileLoop env runId db rest created
      else fileLoop env runId (attachIssue db runId b.bugId res.url) rest (created + 1)

/-- Optional issue filing, worker.py lines 209-226, gated on the policy
flag and a non-empty bug list. -/
def issuePhase (env : Env) (db : DB) (runId : String) (run1 : RunRow)
    (bugs : List NBug) : Except (DB × List Event × Exn) (DB × List Event) :=
  if run1.createGithubIssues ∧ bugs ≠ [] then
    match fileLoop env runId db bugs 0 with
    | .error (db', e) => .error (db', [Event.step "github_issues" "started" none], e)
    | .ok (db', created) => .ok (db',
        [Event.step "github_issues" "started" none,
         Event.step "github_issues" "finished" (some (.issuesCreated created))])
  else .ok (db, [])

/-- The failed run row written by the except clauses, worker.py lines
239-241 and 246-249. -/
def failRow (env : Env) (run1 : RunRow) (e : Exn) : RunRow :=
  { run1 with
    stat := "failed"
    finishedAt := some env.tFinish
    errorMessage := some (errMsgOf env e) }

/-- The except clauses, worker.py lines 238-252: mark the run failed with
finished timestamp and error message, emit the terminal failure step event
and the error-level log event. -/
def failRun (env : Env) (db : DB) (run1 : RunRow) (evs : List Event) (e : Exn) :
    DB × List Event :=
  (updateRun db (failRow env run1 e),
   evs ++ [Event.step "done" "finished" (some (.statusOf "failed")),
           Event.log "error" (some "error") (errMsgOf env e)])

/-- The succeeded run row written at worker.py lines 229-234. -/
def succRow (env : Env) (run1 : RunRow) (srs : List SuiteRes) (bugs : List NBug) :
    RunRow :=
  { run1 with
    stat := "succeeded"
    finishedAt := some env.tFinish
    summarySuites := some (srs.map fun sr => (sr.suite, sr.ok, sr.exitCode))
    summaryBugs := some bugs.length }

/-- The orchestrator _process_run, worker.py lines 81-252: look up the
run (absent runs return immediately), mark it running, execute the step
sequence, persist bugs and the CSV artifact, optionally file issues, and
finish the run as succeeded, converting any raised exception into the
failed terminal state. -/
def processRun (env : Env) (db : DB) (runId : String) : DB × List Event :=
  match findRun db runId with
  | none => (db, [])
  | some run =>
    let run1 := mkRunning env run
    let db1 := updateRun db run1
    match phase1 env run1 with
    | .error (evs, e) => failRun env db1 run1 evs e
    | .ok (srs, bugs, evs) =>
      let db2 := addBugs db1 runId bugs
      match env.csvExn with
      | some e => failRun env db2 run1 evs e
      | none =>
        let db3 := addArtifact db2 runId
        match issuePhase env db3 runId run1 bugs with
        | .error (db4, evs2, e) => failRun env db4 run1 (evs ++ evs2) e
        | .ok (db4, evs2) =>
          (updateRun db4 (succRow env run1 srs bugs),
           evs ++ evs2 ++ [Event.step "done" "finished" (some (.statusOf "succeeded"))])

/-! ## Process lifecycle manager (playwright_runner.py PlaywrightRunner.run_suite) -/

/-- Outcome of the readiness polling loop _wait_http_ok, lines 99-110:
each probe within the timeout window either raised (none) or returned a
status code; the loop returns true at the first status below 500. -/
def waitHttpOk (probes : List (Option Nat)) : Bool :=
  probes.any fun r =>
    match r with
    | some code => decide (code < 500)
    | none => false

/-- Start-command resolution _default_start, lines 118-148: an explicit
override wins, else a dev script is preferred over a start script, else a
RuntimeError is raised. -/
def resolveStart (overrideCmd : Option String) (scripts : List String) :
    Except Exn Unit :=
  match overrideCmd with
  | some _ => .ok ()
  | none =>
    if scripts.contains "dev" ∨ scripts.contains "start" then .ok ()
    else .error (.other "No dev/start script found in package.json")

/-- Oracle for one run_suite call: filesystem facts and the outcome of
each external subprocess interaction. -/
structure RSEnv where
  pkgJsonExists : Bool
  uiInstallExn : Option Exn
  overrideCmd : Option String
  scripts : List String
  probes : List (Option Nat)
  pwCwdExists : Bool
  pwPkgJsonExists : Bool
  testsInstallExn : Option Exn
  testExit : Int

/-- run_suite return value (the SuiteResult dataclass, paths elided). -/
structure SuiteOut where
  suite : String
  ok : Bool
  exitCode : Int
deriving DecidableEq

deriving instance DecidableEq for Except

/-- Observable outcome of one run_suite call: the returned value or the
raised exception, whether the application subprocess was started, whether
the finally clause terminated it, and whether the Playwright subprocess
was launched. -/
structure RSOut where
  result : Except Exn SuiteOut
  serverStarted : Bool
  serverCleaned : Bool
  testExecuted : Bool
deriving DecidableEq

/-- PlaywrightRunner.run_suite, lines 187-286: package.json check and
dependency install precede the server launch; the try body raises on a
failed readiness wait or a missing test folder and otherwise executes the
test runner (whose timeout is converted to exit code 124, never a raise);
the finally clause terminates the server, escalating to kill, on every
path after the launch. -/
def runSuite (env : RSEnv) (suite : String) : RSOut :=
  if env.pkgJsonExists = false then
    { result := .error (.other "UI folder missing package.json"),
      serverStarted := false, serverCleaned := false, testExecuted := false }
  else
    match env.uiInstallExn with
    | some e =>
      { result := .error e,
        serverStarted := false, serverCleaned := false, testExecuted := false }
    | none =>
      match resolveStart env.overrideCmd env.scripts with
      | .error e =>
        { result := .error e,
          serverStarted := false, serverCleaned := false, testExecuted := false }
      | .ok _ =>
        if waitHttpOk env.probes = false then
          { result := .error (.other "UI server did not become ready"),
            serverStarted := true, serverCleaned := true, testExecuted := false }
        else if env.pwCwdExists = false then
          { result := .error (.other "Playwright tests folder not found"),
            serverStarted := true, serverCleaned := true, testExecuted := false }
        else
          match (if env.pwPkgJsonExists then env.testsInstallExn else none) with
          | some e =>
            { result := .error e,
              serverStarted := true, serverCleaned := true, testExecuted := false }
          | none =>
            { result := .ok { suite := suite, ok := env.testExit == 0,
                              exitCode := env.testExit },
              serverStarted := true, serverCleaned := true, testExecuted := true }

/-! ## Worker lifecycle manager (worker_manager.py WorkerManager) -/

/-- The supervised child process handle. -/
structure WMProc where
  pid : Nat
deriving DecidableEq

/-- The mutable state of the WorkerManager singleton. -/
structure WMState where
  process : Option WMProc
  mode : String
  startTime : Option Nat
  logs : List String
deriving DecidableEq

/-- The WorkerStatus dataclass. -/
structure WMStatus where
  running : Bool
  mode : String
  pid : Option Nat
  uptimeSeconds : Option Nat
  logTail : List String
deriving DecidableEq

/-- Last n entries of a list (Python list slicing with a negative start). -/
def lastN (n : Nat) (l : List String) : List String :=
  l.drop (l.length - n)

/-- WorkerManager.get_status, lines 81-105: poll the child; a live child
reports running with pid and uptime, a dead or absent child reports not
running, clearing the stored process handle (lazy reconciliation). -/
def getStatus (wm : WMState) (alive : Bool) (now : Nat) : WMStatus × WMState :=
  match wm.process with
  | some p =>
    if alive then
      ({ running := true, mode := wm.mode, pid := some p.pid,
         uptimeSeconds := wm.startTime.map (fun t => now - t),
         logTail := lastN 100 wm.logs }, wm)
    else
      ({ running := false, mode := wm.mode, pid := none, uptimeSeconds := none,
         logTail := lastN 100 wm.logs },
       { wm with process := none, startTime := none })
  | none =>
    ({ running := false, mode := wm.mode, pid := none, uptimeSeconds := none,
       logTail := lastN 100 wm.logs }, wm)

/-- Oracle for one start call: venv layout, the spawn outcome and the
immediate liveness probe after the one-second sleep. -/
structure WMEnv where
  now : Nat
  venvExists : Bool
  celeryInVenv : Bool
  spawn : Except String Nat
  exitedImmediately : Bool

/-- The dict returned by WorkerManager.start or stop. -/
structure WMResult where
  success : Bool
  error : Option String
  pid : Option Nat
  modeOut : Option String
  logsOut : Option (List String)
deriving DecidableEq

/-- WorkerManager.start, lines 107-180: reject when the status poll says
running (before touching any state); otherwise record the mode, clear the
log buffer, check the venv, spawn, and report a start failure when the
child exited during the liveness pause. -/
def wmStart (wm : WMState) (alive : Bool) (env : WMEnv) (mode : String) :
    WMResult × WMState :=
  let s := getStatus wm alive env.now
  if s.1.running then
    ({ success := false, error := some "Worker is already running",
       pid := none, modeOut := none, logsOut := none }, s.2)
  else
    let wm2 := { s.2 with mode := mode, logs := [] }
    if env.venvExists ∧ ¬env.celeryInVenv then
      ({ success := false, error := some "Celery not found in venv",
         pid := none, modeOut := none, logsOut := none }, wm2)
    else
      match env.spawn with
      | .error e =>
        ({ success := false, error := some e,
           pid := none, modeOut := none, logsOut := none }, wm2)
      | .ok newPid =>
        let wm3 := { wm2 with
          process := some { pid := newPid }
          startTime := some env.now }
        if env.exitedImmediately then
          ({ success := false, error := some "Worker failed to start",
             pid := none, modeOut := none, logsOut := some wm3.logs }, wm3)
        else
          ({ success := true, error := none, pid := some newPid,
             modeOut := some mode, logsOut := none }, wm3)

/-! ## Event bus (events.py publish_event, main.py stream_events) -/

/-- Modelled from the spec: publish_event and stream_events delegate
delivery to a Redis pub/sub channel keyed by run id, which is outside this
repository.  Following section 4.4, the channel is modelled as a sequential
trace of publish and subscribe operations; delivery is fire and forget with
no replay buffer. -/
inductive BusOp
  | publish (runId : String) (payload : Event)
  | subscribe (sid : Nat) (runId : String)
deriving DecidableEq

/-- Modelled from the spec: the events a subscriber receives, walking the
trace while tracking the active subscriptions; a published frame is
delivered to the subscriber exactly when it is already subscribed to that
run id channel. -/
def deliveredAux (sid : Nat) : List BusOp → List (Nat × String) → List Event
  | [], _ => []
  | .subscribe s r :: rest, act => deliveredAux sid rest (act ++ [(s, r)])
  | .publish r e :: rest, act =>
    (if act.any fun p => p.1 == sid && p.2 == r then [e] else []) ++
      deliveredAux sid rest act

/-- Events observed by subscriber sid over a whole trace. -/
def delivered (h : List BusOp) (sid : Nat) : List Event :=
  deliveredAux sid h []

/-- Position and channel of the first subscribe operation of sid. -/
def subPoint : List BusOp → Nat → Option (Nat × String)
  | [], _ => none
  | .subscribe s r :: rest, sid =>
    if s = sid then some (0, r)
    else (subPoint rest sid).map fun p => (p.1 + 1, p.2)
  | .publish _ _ :: rest, sid =>
    (subPoint rest sid).map fun p => (p.1 + 1, p.2)

/-- All frames published to the channel of run id r, in trace order. -/
def publishesTo (h : List BusOp) (r : String) : List Event :=
  h.filterMap fun op =>
    match op with
    | .publish r' e => if r' = r then some e else none
    | .subscribe _ _ => none

/-- The trace contains no subscribe operation by sid. -/
def noSubOf (h : List BusOp) (sid : Nat) : Prop :=
  ∀ s r, BusOp.subscribe s r ∈ h → s ≠ sid

/-- sid subscribes at most once in the trace. -/
@[reducible] def subsOnce (h : List BusOp) (sid : Nat) : Prop :=
  (h.filter fun op =>
    match op with
    | .subscribe s _ => s == sid
    | .publish _ _ => false).length ≤ 1

/-! ## Structural lemmas about the orchestrator -/

theorem findRun_some_id {db : DB} {i : String} {r : RunRow}
    (h : findRun db i = some r) : r.id = i := by
  simp only [findRun] at h
  simpa using List.find?_some h

theorem find?_update {l : List RunRow} {i : String} {r r0 : RunRow}
    (h : l.find? (fun x => x.id == i) = some r0) (hid : r.id = i) :
    (l.map fun x => if x.id == r.id then r else x).find? (fun x => x.id == i)
      = some r := by
  induction l with
  | nil => simp at h
  | cons x xs ih =>
    by_cases hx : x.id = i
    · have hx2 : (x.id == r.id) = true := beq_iff_eq.mpr (by rw [hx, hid])
      have hr : (r.id == i) = true := beq_iff_eq.mpr hid
      simp only [List.map_cons, hx2, if_true]
      exact List.find?_cons_of_pos _ hr
    · have hx2 : (x.id == r.id) = false := by
        simp only [beq_eq_false_iff_ne, ne_eq, hid]
        exact hx
      have hx3 : ¬ ((x.id == i) = true) := by
        simp only [beq_iff_eq]
        exact hx
      have hstep : (x :: xs).find? (fun y => y.id == i) = xs.find? (fun y => y.id == i) :=
        List.find?_cons_of_neg _ hx3
      have h' : xs.find? (fun x => x.id == i) = some r0 := by
        rw [hstep] at h
        exact h
      have hstep2 : (x :: (xs.map fun y => if y.id == r.id then r else y)).find?
          (fun y => y.id == i) = (xs.map fun y => if y.id == r.id then r else y).find?
          (fun y => y.id == i) := List.find?_cons_of_neg _ hx3
      simp only [List.map_cons, hx2, Bool.false_eq_true, if_false]
      rw [hstep2]
      exact ih h'

theorem findRun_updateRun {db : DB} {i : String} {r r0 : RunRow}
    (h : findRun db i = some r0) (hid : r.id = i) :
    findRun (updateRun db r) i = some r := by
  simp only [findRun, updateRun] at *
  exact find?_update h hid

theorem findRun_eq_of_runs {d1 d2 : DB} (h : d1.runs = d2.runs) (i : String) :
    findRun d1 i = findRun d2 i := by
  simp [findRun, h]

theorem runs_addBugs (db : DB) (i : String) (bs : List NBug) :
    (addBugs db i bs).runs = db.runs := rfl

theorem runs_addArtifact (db : DB) (i : String) :
    (addArtifact db i).runs = db.runs := rfl

theorem runs_attachIssue (db : DB) (i b u : String) :
    (attachIssue db i b u).runs = db.runs := rfl

/-- Project the database out of either outcome of the filing loop. -/
def fileLoopDB : Except (DB × Exn) (DB × Nat) → DB
  | .ok (d, _) => d
  | .error (d, _) => d

theorem fileLoop_runs (env : Env) (i : String) :
    ∀ (bugs : List NBug) (db : DB) (c : Nat),
      (fileLoopDB (fileLoop env i db bugs c)).runs = db.runs := by
  intro bugs
  induction bugs with
  | nil => intro db c; rfl
  | cons b rest ih =>
    intro db c
    simp only [fileLoop]
    cases env.fileIssue b with
    | error e => rfl
    | ok res =>
      by_cases hu : res.url = ""
      · simp only [hu, if_true]
        exact ih db c
      · simp only [hu, if_false]
        rw [ih]
        exact runs_attachIssue db i b.bugId res.url

theorem issuePhase_runs_error {env : Env} {db : DB} {i : String} {run1 : RunRow}
    {bugs : List NBug} {d : DB} {evs : List Event} {e : Exn}
    (h : issuePhase env db i run1 bugs = .error (d, evs, e)) : d.runs = db.runs := by
  unfold issuePhase at h
  split at h
  · cases hf : fileLoop env i db bugs 0 with
    | error p =>
      obtain ⟨pdb, pe⟩ := p
      rw [hf] at h
      simp only [Except.error.injEq, Prod.mk.injEq] at h
      have hr := fileLoop_runs env i bugs db 0
      rw [hf] at hr
      rw [← h.1]
      exact hr
    | ok p =>
      rw [hf] at h
      exact absurd h (by simp)
  · exact absurd h (by simp)

theorem issuePhase_runs_ok {env : Env} {db : DB} {i : String} {run1 : RunRow}
    {bugs : List NBug} {d : DB} {evs : List Event}
    (h : issuePhase env db i run1 bugs = .ok (d, evs)) : d.runs = db.runs := by
  unfold issuePhase at h
  split at h
  · cases hf : fileLoop env i db bugs 0 with
    | error p =>
      rw [hf] at h
      exact absurd h (by simp)
    | ok p =>
      obtain ⟨pdb, pn⟩ := p
      rw [hf] at h
      simp only [Except.ok.injEq, Prod.mk.injEq] at h
      have hr := fileLoop_runs env i bugs db 0
      rw [hf] at hr
      rw [← h.1]
      exact hr
  · simp only [Except.ok.injEq, Prod.mk.injEq] at h
    rw [← h.1]

theorem processRun_eq_phase1_error {env : Env} {db : DB} {runId : String}
    {run : RunRow} {evs0 : List Event} {e : Exn}
    (h : findRun db runId = some run)
    (hp : phase1 env (mkRunning env run) = .error (evs0, e)) :
    processRun env db runId =
      failRun env (updateRun db (mkRunning env run)) (mkRunning env run) evs0 e := by
  simp only [processRun, h, hp]

theorem processRun_eq_csv_error {env : Env} {db : DB} {runId : String}
    {run : RunRow} {srs : List SuiteRes} {bugs : List NBug} {evs : List Event} {e : Exn}
    (h : findRun db runId = some run)
    (hp : phase1 env (mkRunning env run) = .ok (srs, bugs, evs))
    (hc : env.csvExn = some e) :
    processRun env db runId =
      failRun env (addBugs (updateRun db (mkRunning env run)) runId bugs)
        (mkRunning env run) evs e := by
  simp only [processRun, h, hp, hc]

theorem processRun_eq_issue_error {env : Env} {db : DB} {runId : String}
    {run : RunRow} {srs : List SuiteRes} {bugs : List NBug} {evs : List Event}
    {db4 : DB} {evs2 : List Event} {e : Exn}
    (h : findRun db runId = some run)
    (hp : phase1 env (mkRunning env run) = .ok (srs, bugs, evs))
    (hc : env.csvExn = none)
    (hq : issuePhase env (addArtifact (addBugs (updateRun db (mkRunning env run)) runId bugs) runId)
        runId (mkRunning env run) bugs = .error (db4, evs2, e)) :
    processRun env db runId = failRun env db4 (mkRunning env run) (evs ++ evs2) e := by
  simp only [processRun, h, hp, hc, hq]

theorem processRun_eq_success {env : Env} {db : DB} {runId : String}
    {run : RunRow} {srs : List SuiteRes} {bugs : List NBug} {evs : List Event}
    {db4 : DB} {evs2 : List Event}
    (h : findRun db runId = some run)
    (hp : phase1 env (mkRunning env run) = .ok (srs, bugs, evs))
    (hc : env.csvExn = none)
    (hq : issuePhase env (addArtifact (addBugs (updateRun db (mkRunning env run)) runId bugs) runId)
        runId (mkRunning env run) bugs = .ok (db4, evs2)) :
    processRun env db runId =
      (updateRun db4 (succRow env (mkRunning env run) srs bugs),
       evs ++ evs2 ++ [Event.step "done" "finished" (some (.statusOf "succeeded"))]) := by
  simp only [processRun, h, hp, hc, hq]

theorem failRow_id (env : Env) (run1 : RunRow) (e : Exn) :
    (failRow env run1 e).id = run1.id := rfl

theorem succRow_id (env : Env) (run1 : RunRow) (srs : List SuiteRes)
    (bugs : List NBug) : (succRow env run1 srs bugs).id = run1.id := rfl

theorem mkRunning_id (env : Env) (run : RunRow) :
    (mkRunning env run).id = run.id := rfl

/-- Every invocation of the orchestrator on an existing run terminates in
a terminal state with timestamps, summary or error data, and the terminal
event emitted; the shared backbone for several claims below. -/
theorem processRun_shape {env : Env} {db : DB} {runId : String} {run : RunRow}
    (h : findRun db runId = some run) :
    ∃ db' evs run', processRun env db runId = (db', evs) ∧
      findRun db' runId = some run' ∧
      run'.startedAt = some env.tStart ∧
      run'.finishedAt = some env.tFinish ∧
      ((run'.stat = "succeeded" ∧ run'.errorMessage = run.errorMessage ∧
        (∃ l, run'.summarySuites = some l) ∧ (∃ n, run'.summaryBugs = some n) ∧
        Event.step "done" "finished" (some (.statusOf "succeeded")) ∈ evs) ∨
       (run'.stat = "failed" ∧ (∃ m, run'.errorMessage = some m) ∧
        Event.step "done" "finished" (some (.statusOf "failed")) ∈ evs ∧
        (∃ m, Event.log "error" (some "error") m ∈ evs))) := by
  have hid : run.id = runId := findRun_some_id h
  have hid1 : (mkRunning env run).id = runId := by rw [mkRunning_id, hid]
  have hdb1 : findRun (updateRun db (mkRunning env run)) runId = some (mkRunning env run) :=
    findRun_updateRun h hid1
  cases hp : phase1 env (mkRunning env run) with
  | error pe =>
    obtain ⟨evs0, e⟩ := pe
    refine ⟨_, _, failRow env (mkRunning env run) e,
      processRun_eq_phase1_error h hp, ?_, rfl, rfl, Or.inr ⟨rfl, ⟨_, rfl⟩, ?_, ⟨errMsgOf env e, ?_⟩⟩⟩
    · exact findRun_updateRun hdb1 (by rw [failRow_id, hid1])
    · simp [failRun]
    · simp [failRun]
  | ok po =>
    obtain ⟨srs, bugs, evs⟩ := po
    cases hc : env.csvExn with
    | some e =>
      have hdb2 : findRun (addBugs (updateRun db (mkRunning env run)) runId bugs) runId
          = some (mkRunning env run) := by
        rw [findRun_eq_of_runs (runs_addBugs _ _ _)]
        exact hdb1
      refine ⟨_, _, failRow env (mkRunning env run) e,
        processRun_eq_csv_error h hp hc, ?_, rfl, rfl, Or.inr ⟨rfl, ⟨_, rfl⟩, ?_, ⟨errMsgOf env e, ?_⟩⟩⟩
      · exact findRun_updateRun hdb2 (by rw [failRow_id, hid1])
      · simp [failRun]
      · simp [failRun]
    | none =>
      have hdb3 : findRun (addArtifact (addBugs (updateRun db (mkRunning env run)) runId bugs) runId)
          runId = some (mkRunning env run) := by
        rw [findRun_eq_of_runs (runs_addArtifact _ _)]
        rw [findRun_eq_of_runs (runs_addBugs _ _ _)]
        exact hdb1
      cases hq : issuePhase env
          (addArtifact (addBugs (updateRun db (mkRunning env run)) runId bugs) runId)
          runId (mkRunning env run) bugs with
      | error q =>
        obtain ⟨db4, evs2, e⟩ := q
        have hdb4 : findRun db4 runId = some (mkRunning env run) := by
          rw [findRun_eq_of_runs (issuePhase_runs_error hq)]
          exact hdb3
        refine ⟨_, _, failRow env (mkRunning env run) e,
          processRun_eq_issue_error h hp hc hq, ?_, rfl, rfl,
          Or.inr ⟨rfl, ⟨_, rfl⟩, ?_, ⟨errMsgOf env e, ?_⟩⟩⟩
        · exact findRun_updateRun hdb4 (by rw [failRow_id, hid1])
        · simp [failRun]
        · simp [failRun]
      | ok q =>
        obtain ⟨db4, evs2⟩ := q
        have hdb4 : findRun db4 runId = some (mkRunning env run) := by
          rw [findRun_eq_of_runs (issuePhase_runs_ok hq)]
          exact hdb3
        refine ⟨_, _, succRow env (mkRunning env run) srs bugs,
          processRun_eq_success h hp hc hq, ?_, rfl, rfl,
          Or.inl ⟨rfl, rfl, ⟨_, rfl⟩, ⟨_, rfl⟩, ?_⟩⟩
        · exact findRun_updateRun hdb4 (by rw [succRow_id, hid1])
        · simp

/-! ## Auxiliary facts about individual phases -/

theorem phase1_clone_error {env : Env} {run1 : RunRow} {e : Exn}
    (hc : env.cloneExn = some e) :
    phase1 env run1 = .error
      ([Event.step "clone_repo" "started" none,
        Event.log "info" (some "clone_repo") (cloneMsg run1)], e) := by
  simp only [phase1, hc]

theorem suitesPhase_ok {env : Env} {s1 s2 : SuiteRes}
    (h1 : env.runSmoke = .ok s1) (h2 : env.runRegression = .ok s2) (sel : String) :
    ∃ srs evs, suitesPhase env sel = .ok (srs, evs) := by
  simp only [suitesPhase, h1, h2]
  repeat' split
  all_goals try exact ⟨_, _, rfl⟩
  all_goals rename_i heq
  all_goals split at heq <;> simp_all

theorem phase1_ok {env : Env} {run1 : RunRow} {a : Analysis} {n : Nat} {s1 s2 : SuiteRes}
    (hc : env.cloneExn = none) (ha : env.analyze = .ok a) (hg : env.generate = .ok n)
    (h1 : env.runSmoke = .ok s1) (h2 : env.runRegression = .ok s2) :
    ∃ srs bugs evs, phase1 env run1 = .ok (srs, bugs, evs) := by
  obtain ⟨srs, evs, hsp⟩ := suitesPhase_ok h1 h2 run1.suiteSel
  simp only [phase1, hc, ha, hg, hsp]
  exact ⟨_, _, _, rfl⟩

theorem fileLoop_allok {env : Env} {i : String}
    (hall : ∀ b : NBug, ∃ r, env.fileIssue b = .ok r) :
    ∀ (bugs : List NBug) (db : DB) (c : Nat),
      ∃ d n, fileLoop env i db bugs c = .ok (d, n) := by
  intro bugs
  induction bugs with
  | nil => intro db c; exact ⟨db, c, rfl⟩
  | cons b rest ih =>
    intro db c
    obtain ⟨r, hr⟩ := hall b
    simp only [fileLoop, hr]
    by_cases hu : r.url = ""
    · rw [if_pos hu]
      exact ih db c
    · rw [if_neg hu]
      exact ih _ _

theorem issuePhase_ok_exists {env : Env} {db : DB} {i : String} {run1 : RunRow}
    {bugs : List NBug} (hall : ∀ b : NBug, ∃ r, env.fileIssue b = .ok r) :
    ∃ d evs, issuePhase env db i run1 bugs = .ok (d, evs) := by
  unfold issuePhase
  split
  · obtain ⟨d, n, hf⟩ := fileLoop_allok hall bugs db 0
    rw [hf]
    exact ⟨_, _, rfl⟩
  · exact ⟨_, _, rfl⟩

/-! ## Example fixtures used by witnesses and counterexamples -/

/-- A freshly submitted run selecting the smoke suite with issue filing
enabled. -/
def exRunQueued : RunRow :=
  { id := "r1", stat := "queued", createdAt := 0, startedAt := none,
    finishedAt := none, repoUrl := "https://github.com/o/r", branch := "main",
    appDir := ".", uiDir := "ui", suiteSel := "smoke", createGithubIssues := true,
    commitResults := false, summarySuites := none, summaryBugs := none,
    errorMessage := none }

def exDb : DB := { runs := [exRunQueued], bugs := [], artifacts := [], issues := [] }

def exDbEmpty : DB := { runs := [], bugs := [], artifacts := [], issues := [] }

def exOkSuite : SuiteRes := { suite := "smoke", ok := true, exitCode := 0, report := none }

def exFailSuite : SuiteRes := { suite := "smoke", ok := false, exitCode := 1, report := none }

/-- An environment in which every external call succeeds. -/
def exEnvOk : Env :=
  { tStart := 10, tFinish := 20, cloneExn := none,
    analyze := .ok { startRepr := "s" }, generate := .ok 2,
    runSmoke := .ok exOkSuite, runRegression := .ok exOkSuite,
    triage := fun _ => .ok [], csvExn := none,
    fileIssue := fun _ => .ok { created := true, url := "" }, traceback := "tb" }

/-- A run already finished as succeeded. -/
def exRunDone : RunRow :=
  { exRunQueued with stat := "succeeded", startedAt := some 1, finishedAt := some 2 }

def exDbDone : DB := { runs := [exRunDone], bugs := [], artifacts := [], issues := [] }

def exEnvCloneFail : Env := { exEnvOk with cloneExn := some (.other "boom") }

/-- A raw triage bug carrying a severity outside the four-level taxonomy
and an explicit confidence. -/
def exSevBug : TriageBug :=
  { title := some " Login fails ", severity := some "catastrophic",
    suiteField := none, expected := some "works", actual := some "broken",
    reproSteps := some (Sum.inl ["a", "b"]), evidencePaths := none,
    suggestedFix := none, componentGuess := none, confidence := some 95 }

/-- An environment in which the smoke suite fails, triage yields one bug
and the issue tracker raises on every call. -/
def ex3Env : Env :=
  { exEnvOk with
    runSmoke := .ok exFailSuite
    triage := fun _ => .ok [exSevBug]
    fileIssue := fun _ => .error (.other "github 500") }

/-! ## Claim C10 -/

/-- C10: invoking the orchestrator process operation for a run id with no
Run record returns without modifying any persisted state and without
publishing any event (worker.py lines 82-84). -/
theorem processRun_missing_run_noop :
    ∀ (env : Env) (db : DB) (runId : String),
      findRun db runId = none → processRun env db runId = (db, []) := by
  intro env db runId h
  simp only [processRun, h]

/-- Witness for C10 at an empty database. -/
theorem processRun_missing_run_noop_witness :
    processRun exEnvOk exDbEmpty "r1" = (exDbEmpty, []) :=
  processRun_missing_run_noop exEnvOk exDbEmpty "r1" (by rfl)

/-! ## Claim C1 -/

/-- C1 counterexample: the orchestrator has no terminal-state guard.
Invoking it on a run already in the terminal state succeeded is not a
no-op: the run is re-entered (the committed intermediate row is running
while its stale finished timestamp is still set, violating the claimed
iff) and, the clone step failing, the run leaves along the illegal
transition succeeded to failed, with events published. -/
theorem processRun_terminal_reentry_cex :
    exRunDone.stat = "succeeded" ∧
    (mkRunning exEnvCloneFail exRunDone).stat = "running" ∧
    (mkRunning exEnvCloneFail exRunDone).finishedAt = some 2 ∧
    ((processRun exEnvCloneFail exDbDone "r1").1.runs.map fun r => r.stat) = ["failed"] ∧
    (processRun exEnvCloneFail exDbDone "r1").2 ≠ [] := by
  refine ⟨rfl, rfl, rfl, rfl, ?_⟩
  decide

/-- C1 as amended: one invocation of the orchestrator on any existing run,
terminal or not, sets the run to running with started_at and then finishes
it as succeeded or failed with finished_at set; there is no terminal-state
guard, so re-invocation on a terminal run re-processes it instead of being
a no-op. -/
theorem processRun_transitions_amended :
    ∀ (env : Env) (db : DB) (runId : String) (run : RunRow),
      findRun db runId = some run →
      ∃ db' evs run', processRun env db runId = (db', evs) ∧
        findRun db' runId = some run' ∧
        run'.startedAt = some env.tStart ∧
        run'.finishedAt = some env.tFinish ∧
        (run'.stat = "succeeded" ∨ run'.stat = "failed") := by
  intro env db runId run h
  obtain ⟨db', evs, run', heq, hf, hs, hfin, hcase⟩ := processRun_shape h
  exact ⟨db', evs, run', heq, hf, hs, hfin,
    hcase.elim (fun c => Or.inl c.1) (fun c => Or.inr c.1)⟩

/-- Witness for the amended C1 on a queued run in an all-success
environment. -/
theorem processRun_transitions_amended_witness :
    ∃ db' evs run', processRun exEnvOk exDb "r1" = (db', evs) ∧
      findRun db' "r1" = some run' ∧
      run'.startedAt = some exEnvOk.tStart ∧
      run'.finishedAt = some exEnvOk.tFinish ∧
      (run'.stat = "succeeded" ∨ run'.stat = "failed") :=
  processRun_transitions_amended exEnvOk exDb "r1" exRunQueued (by rfl)

/-! ## Claim C2 -/

/-- C2: over every environment, so over every pattern of exceptions raised
inside the step sequence, the orchestrator never leaves an existing run in
running: it finishes as succeeded or failed, a failed run always has a
non-null recorded error message, the terminal failure step event and an
error-level log event, and every raise point forces the failed state with
exactly that exception recorded: an exception escaping the clone, analyze,
generate or suite-execution steps (a phase1 error), an exception from the
CSV persistence step, and an exception escaping the issue-filing loop each
finish the run as failed with that error message. -/
theorem processRun_catches_exceptions :
    ∀ (env : Env) (db : DB) (runId : String) (run : RunRow),
      findRun db runId = some run →
      ∃ db' evs run', processRun env db runId = (db', evs) ∧
        findRun db' runId = some run' ∧
        run'.stat ≠ "running" ∧
        (run'.stat = "succeeded" ∨ run'.stat = "failed") ∧
        (run'.stat = "failed" →
          run'.errorMessage ≠ none ∧
          Event.step "done" "finished" (some (.statusOf "failed")) ∈ evs ∧
          ∃ m, Event.log "error" (some "error") m ∈ evs) ∧
        (∀ evs0 e, phase1 env (mkRunning env run) = .error (evs0, e) →
          run'.stat = "failed" ∧ run'.errorMessage = some (errMsgOf env e)) ∧
        (∀ srs bugs evs1 e, phase1 env (mkRunning env run) = .ok (srs, bugs, evs1) →
          env.csvExn = some e →
          run'.stat = "failed" ∧ run'.errorMessage = some (errMsgOf env e)) ∧
        (∀ srs bugs evs1 db4 evs2 e,
          phase1 env (mkRunning env run) = .ok (srs, bugs, evs1) →
          env.csvExn = none →
          issuePhase env
            (addArtifact (addBugs (updateRun db (mkRunning env run)) runId bugs) runId)
            runId (mkRunning env run) bugs = .error (db4, evs2, e) →
          run'.stat = "failed" ∧ run'.errorMessage = some (errMsgOf env e)) := by
  intro env db runId run h
  have hid1 : (mkRunning env run).id = runId := by
    rw [mkRunning_id, findRun_some_id h]
  have hdb1 : findRun (updateRun db (mkRunning env run)) runId = some (mkRunning env run) :=
    findRun_updateRun h hid1
  cases hp : phase1 env (mkRunning env run) with
  | error pe =>
    obtain ⟨evs0, e0⟩ := pe
    refine ⟨_, _, failRow env (mkRunning env run) e0, processRun_eq_phase1_error h hp,
      findRun_updateRun hdb1 (by rw [failRow_id, hid1]), ?_, Or.inr rfl, ?_, ?_, ?_, ?_⟩
    · intro hcon
      exact absurd hcon (by simp [failRow])
    · intro _
      exact ⟨by simp [failRow], by simp [failRun], ⟨errMsgOf env e0, by simp [failRun]⟩⟩
    · intro evs0' e' hp'
      simp only [Except.error.injEq, Prod.mk.injEq] at hp'
      obtain ⟨-, he⟩ := hp'
      subst he
      exact ⟨rfl, rfl⟩
    · intro srs' bugs' evs1' e' hp' _
      exact absurd hp' (by simp)
    · intro srs' bugs' evs1' db4' evs2' e' hp' _ _
      exact absurd hp' (by simp)
  | ok po =>
    obtain ⟨srs, bugs, evs⟩ := po
    cases hc : env.csvExn with
    | some e0 =>
      have hdb2 : findRun (addBugs (updateRun db (mkRunning env run)) runId bugs) runId
          = some (mkRunning env run) := by
        rw [findRun_eq_of_runs (runs_addBugs _ _ _)]
        exact hdb1
      refine ⟨_, _, failRow env (mkRunning env run) e0, processRun_eq_csv_error h hp hc,
        findRun_updateRun hdb2 (by rw [failRow_id, hid1]), ?_, Or.inr rfl, ?_, ?_, ?_, ?_⟩
      · intro hcon
        exact absurd hcon (by simp [failRow])
      · intro _
        exact ⟨by simp [failRow], by simp [failRun], ⟨errMsgOf env e0, by simp [failRun]⟩⟩
      · intro evs0' e' hp'
        exact absurd hp' (by simp)
      · intro srs' bugs' evs1' e' _ hc'
        have he : e0 = e' := Option.some.inj hc'
        subst he
        exact ⟨rfl, rfl⟩
      · intro srs' bugs' evs1' db4' evs2' e' _ hc' _
        exact absurd hc' (by simp)
    | none =>
      have hdb3 : findRun
          (addArtifact (addBugs (updateRun db (mkRunning env run)) runId bugs) runId)
          runId = some (mkRunning env run) := by
        rw [findRun_eq_of_runs (runs_addArtifact _ _),
          findRun_eq_of_runs (runs_addBugs _ _ _)]
        exact hdb1
      cases hq : issuePhase env
          (addArtifact (addBugs (updateRun db (mkRunning env run)) runId bugs) runId)
          runId (mkRunning env run) bugs with
      | error q =>
        obtain ⟨db4, evs2, e0⟩ := q
        have hdb4 : findRun db4 runId = some (mkRunning env run) := by
          rw [findRun_eq_of_runs (issuePhase_runs_error hq)]
          exact hdb3
        refine ⟨_, _, failRow env (mkRunning env run) e0,
          processRun_eq_issue_error h hp hc hq,
          findRun_updateRun hdb4 (by rw [failRow_id, hid1]), ?_, Or.inr rfl,
          ?_, ?_, ?_, ?_⟩
        · intro hcon
          exact absurd hcon (by simp [failRow])
        · intro _
          exact ⟨by simp [failRow], by simp [failRun], ⟨errMsgOf env e0, by simp [failRun]⟩⟩
        · intro evs0' e' hp'
          exact absurd hp' (by simp)
        · intro srs' bugs' evs1' e' _ hc'
          exact absurd hc' (by simp)
        · intro srs' bugs' evs1' db4' evs2' e' hp' _ hq'
          simp only [Except.ok.injEq, Prod.mk.injEq] at hp'
          obtain ⟨hsrs, hbugs, hevs⟩ := hp'
          subst hsrs
          subst hbugs
          subst hevs
          rw [hq] at hq'
          simp only [Except.error.injEq, Prod.mk.injEq] at hq'
          obtain ⟨-, -, he⟩ := hq'
          subst he
          exact ⟨rfl, rfl⟩
      | ok q =>
        obtain ⟨db4, evs2⟩ := q
        have hdb4 : findRun db4 runId = some (mkRunning env run) := by
          rw [findRun_eq_of_runs (issuePhase_runs_ok hq)]
          exact hdb3
        refine ⟨_, _, succRow env (mkRunning env run) srs bugs,
          processRun_eq_success h hp hc hq,
          findRun_updateRun hdb4 (by rw [succRow_id, hid1]), ?_, Or.inl rfl,
          ?_, ?_, ?_, ?_⟩
        · intro hcon
          exact absurd hcon (by simp [succRow])
        · intro hfail
          exact absurd hfail (by simp [succRow])
        · intro evs0' e' hp'
          exact absurd hp' (by simp)
        · intro srs' bugs' evs1' e' _ hc'
          exact absurd hc' (by simp)
        · intro srs' bugs' evs1' db4' evs2' e' hp' _ hq'
          simp only [Except.ok.injEq, Prod.mk.injEq] at hp'
          obtain ⟨hsrs, hbugs, hevs⟩ := hp'
          subst hsrs
          subst hbugs
          subst hevs
          rw [hq] at hq'
          exact absurd hq' (by simp)

/-- Witness for C2 on a queued run with a raising clone step. -/
theorem processRun_catches_exceptions_witness :
    ∃ db' evs run', processRun exEnvCloneFail exDb "r1" = (db', evs) ∧
      findRun db' "r1" = some run' ∧
      run'.stat ≠ "running" ∧
      (run'.stat = "succeeded" ∨ run'.stat = "failed") ∧
      (run'.stat = "failed" →
        run'.errorMessage ≠ none ∧
        Event.step "done" "finished" (some (.statusOf "failed")) ∈ evs ∧
        ∃ m, Event.log "error" (some "error") m ∈ evs) ∧
      (∀ evs0 e, phase1 exEnvCloneFail (mkRunning exEnvCloneFail exRunQueued)
          = .error (evs0, e) →
        run'.stat = "failed" ∧ run'.errorMessage = some (errMsgOf exEnvCloneFail e)) ∧
      (∀ srs bugs evs1 e, phase1 exEnvCloneFail (mkRunning exEnvCloneFail exRunQueued)
          = .ok (srs, bugs, evs1) →
        exEnvCloneFail.csvExn = some e →
        run'.stat = "failed" ∧ run'.errorMessage = some (errMsgOf exEnvCloneFail e)) ∧
      (∀ srs bugs evs1 db4 evs2 e,
        phase1 exEnvCloneFail (mkRunning exEnvCloneFail exRunQueued)
          = .ok (srs, bugs, evs1) →
        exEnvCloneFail.csvExn = none →
        issuePhase exEnvCloneFail
          (addArtifact (addBugs (updateRun exDb (mkRunning exEnvCloneFail exRunQueued))
            "r1" bugs) "r1")
          "r1" (mkRunning exEnvCloneFail exRunQueued) bugs = .error (db4, evs2, e) →
        run'.stat = "failed" ∧ run'.errorMessage = some (errMsgOf exEnvCloneFail e)) :=
  processRun_catches_exceptions exEnvCloneFail exDb "r1" exRunQueued (by rfl)

/-! ## Claim C3 -/

/-- C3 counterexample: the issue-filing loop contains no per-bug handler.
With one triaged bug and an issue-tracker call that raises, the exception
escapes the loop to the top-level handler: the run transitions to failed
because of the per-bug issue-filing failure, recording exactly that error,
and no IssueRef is created. -/
theorem issue_filing_abort_cex :
    (((processRun ex3Env exDb "r1").1.runs.map fun r => (r.stat, r.errorMessage))
        = [("failed", some "github 500\n\nTraceback:\ntb")]) ∧
    (processRun ex3Env exDb "r1").1.issues = [] ∧
    (processRun ex3Env exDb "r1").1.bugs.length = 1 := by
  refine ⟨rfl, rfl, rfl⟩

/-- The IssueRef rows the loop creates for a prefix of bugs whose filing
calls all return: one row per returned non-empty URL, in order
(worker.py lines 215-223). -/
def filedRefs (env : Env) (runId : String) : List NBug → List IssueRow
  | [] => []
  | b :: rest =>
    match env.fileIssue b with
    | .error _ => []
    | .ok res =>
      (if res.url = "" then []
       else [{ runId := runId, bugId := b.bugId, issueUrl := res.url }]) ++
        filedRefs env runId rest

theorem issues_attachIssue (db : DB) (i b u : String) :
    (attachIssue db i b u).issues
      = db.issues ++ [{ runId := i, bugId := b, issueUrl := u }] := rfl

/-- Running the filing loop over a prefix of succeeding bugs followed by a
raising one stops at the raise: the loop returns that exception together
with the state holding exactly the IssueRefs of the prefix; the failing
bug and everything after it are never attempted. -/
theorem fileLoop_prefix_error {env : Env} {i : String} {b : NBug} {rest : List NBug}
    {e : Exn} (hb : env.fileIssue b = .error e) :
    ∀ (done : List NBug) (db : DB) (c : Nat),
      (∀ d ∈ done, ∃ r, env.fileIssue d = .ok r) →
      ∃ dbf, fileLoop env i db (done ++ b :: rest) c = .error (dbf, e) ∧
        dbf.issues = db.issues ++ filedRefs env i done := by
  intro done
  induction done with
  | nil =>
    intro db c _
    refine ⟨db, ?_, by simp [filedRefs]⟩
    simp only [List.nil_append, fileLoop, hb]
  | cons d done' ih =>
    intro db c hall
    obtain ⟨r, hr⟩ := hall d (List.mem_cons_self _ _)
    have hall' : ∀ x ∈ done', ∃ rr, env.fileIssue x = .ok rr :=
      fun x hx => hall x (List.mem_cons_of_mem _ hx)
    by_cases hu : r.url = ""
    · obtain ⟨dbf, hf, hiss⟩ := ih db c hall'
      refine ⟨dbf, ?_, ?_⟩
      · simp only [List.cons_append, fileLoop, hr]
        rw [if_pos hu]
        exact hf
      · rw [hiss]
        simp [filedRefs, hr, hu]
    · obtain ⟨dbf, hf, hiss⟩ := ih (attachIssue db i d.bugId r.url) (c + 1) hall'
      refine ⟨dbf, ?_, ?_⟩
      · simp only [List.cons_append, fileLoop, hr]
        rw [if_neg hu]
        exact hf
      · rw [hiss, issues_attachIssue]
        simp [filedRefs, hr, hu]

/-- C3 as amended: a raised exception while filing one bug is not caught
in the loop: issue filing stops there (the failing bug and all remaining
bugs get no IssueRef, only the bugs filed before it keep theirs) and the
exception propagates to the top-level handler, so the run transitions to
failed with exactly that error recorded, after the filing step had already
emitted its started event. -/
theorem issue_filing_failure_fails_run :
    ∀ (env : Env) (db : DB) (runId : String) (run : RunRow) (srs : List SuiteRes)
      (done : List NBug) (b : NBug) (rest : List NBug) (evs : List Event) (e : Exn),
      findRun db runId = some run →
      phase1 env (mkRunning env run) = .ok (srs, done ++ b :: rest, evs) →
      run.createGithubIssues = true →
      env.csvExn = none →
      (∀ d ∈ done, ∃ r, env.fileIssue d = .ok r) →
      env.fileIssue b = .error e →
      ∃ db' evs' run', processRun env db runId = (db', evs') ∧
        findRun db' runId = some run' ∧
        run'.stat = "failed" ∧
        run'.errorMessage = some (errMsgOf env e) ∧
        Event.step "github_issues" "started" none ∈ evs' ∧
        db'.issues = db.issues ++ filedRefs env runId done := by
  intro env db runId run srs done b rest evs e h hp hcgi hcsv hall hfb
  have hid1 : (mkRunning env run).id = runId := by
    rw [mkRunning_id, findRun_some_id h]
  have hcgi' : (mkRunning env run).createGithubIssues = true := hcgi
  obtain ⟨dbf, hf, hiss⟩ := fileLoop_prefix_error hfb done
    (addArtifact (addBugs (updateRun db (mkRunning env run)) runId (done ++ b :: rest))
      runId) 0 hall
  have hq : issuePhase env
      (addArtifact (addBugs (updateRun db (mkRunning env run)) runId (done ++ b :: rest))
        runId)
      runId (mkRunning env run) (done ++ b :: rest)
      = .error (dbf, [Event.step "github_issues" "started" none], e) := by
    unfold issuePhase
    rw [if_pos ⟨hcgi', by simp⟩, hf]
  have heq := processRun_eq_issue_error h hp hcsv hq
  have hruns : dbf.runs
      = (addArtifact (addBugs (updateRun db (mkRunning env run)) runId (done ++ b :: rest))
          runId).runs := by
    have hx := fileLoop_runs env runId (done ++ b :: rest)
      (addArtifact (addBugs (updateRun db (mkRunning env run)) runId (done ++ b :: rest))
        runId) 0
    rw [hf] at hx
    exact hx
  have hdbf : findRun dbf runId = some (mkRunning env run) := by
    rw [findRun_eq_of_runs hruns, findRun_eq_of_runs (runs_addArtifact _ _),
      findRun_eq_of_runs (runs_addBugs _ _ _)]
    exact findRun_updateRun h hid1
  refine ⟨_, _, failRow env (mkRunning env run) e, heq,
    findRun_updateRun hdbf (by rw [failRow_id, hid1]), rfl, rfl, ?_, ?_⟩
  · simp [failRun]
  · exact hiss

/-- The single normalized bug of the C3 scenario. -/
def ex3NBug : NBug := normalizeBug "smoke" exSevBug

/-- The events emitted by phase1 in the C3 scenario. -/
def ex3Evs : List Event :=
  match phase1 ex3Env (mkRunning ex3Env exRunQueued) with
  | .ok t => t.2.2
  | .error _ => []

/-- Witness for the amended C3. -/
theorem issue_filing_failure_fails_run_witness :
    ∃ db' evs' run', processRun ex3Env exDb "r1" = (db', evs') ∧
      findRun db' "r1" = some run' ∧
      run'.stat = "failed" ∧
      run'.errorMessage = some (errMsgOf ex3Env (.other "github 500")) ∧
      Event.step "github_issues" "started" none ∈ evs' ∧
      db'.issues = exDb.issues ++ filedRefs ex3Env "r1" [] :=
  issue_filing_failure_fails_run ex3Env exDb "r1" exRunQueued [exFailSuite] [] ex3NBug []
    ex3Evs (.other "github 500") (by rfl) (by rfl) rfl rfl
    (fun d hd => absurd hd (List.not_mem_nil d)) rfl

/-! ## Claim C4 -/

theorem sha1HexChars_length (m : List Nat) : (sha1HexChars m).length = 40 := by
  simp [sha1HexChars, sha1Words, word32Hex]

theorem shortHash_length (s : String) : (shortHash s).length = 12 := by
  show ((sha1HexChars (utf8Bytes s)).take 12).length = 12
  rw [List.length_take, sha1HexChars_length]
  rfl

/-- C4 counterexample: the normalization of worker.py lines 154-175 does
not map severity strings into the four-level taxonomy: a triage bug with
severity catastrophic is persisted with that very severity, which is not
in the taxonomy (every other part of the claim holds, see the amended
theorem). -/
theorem severity_not_mapped_cex :
    (normalizeBug "smoke" exSevBug).severity = "catastrophic" ∧
    "catastrophic" ∉ specSeverityTaxonomy := by
  refine ⟨rfl, ?_⟩
  decide

/-- C4 as amended: bug_id is the 12-character sha1 prefix over suite and
stripped title, hence identical for identical pairs; confidence is always
written as 70, in particular when the source omits it; severity defaults
to major when the source omits it but is otherwise passed through without
mapping into the four-level taxonomy. -/
theorem normalizeBug_amended :
    ∀ (suite : String) (b b2 : TriageBug),
      (normalizeBug suite b).bugId = shortHash (suite ++ ":" ++ normTitle suite b) ∧
      (normTitle suite b = normTitle suite b2 →
        (normalizeBug suite b).bugId = (normalizeBug suite b2).bugId) ∧
      (normalizeBug suite b).bugId.length = 12 ∧
      (normalizeBug suite b).confidence = 70 ∧
      (b.severity = none → (normalizeBug suite b).severity = "major") ∧
      (∀ s, b.severity = some s → (normalizeBug suite b).severity = s) := by
  intro suite b b2
  refine ⟨rfl, ?_, shortHash_length _, rfl, ?_, ?_⟩
  · intro hti
    show shortHash (suite ++ ":" ++ normTitle suite b)
        = shortHash (suite ++ ":" ++ normTitle suite b2)
    rw [hti]
  · intro hs
    show b.severity.getD "major" = "major"
    rw [hs]
    rfl
  · intro s hs
    show b.severity.getD "major" = s
    rw [hs]
    rfl

/-- A triage bug whose severity is in the taxonomy and whose title needs
stripping. -/
def exSevBug2 : TriageBug :=
  { exSevBug with severity := some "high", title := some "Login fails" }

/-- Same normalized title as exSevBug2 after stripping. -/
def exSevBug3 : TriageBug :=
  { exSevBug with severity := some "low", title := some "  Login fails  " }

/-- Witness for the amended C4. -/
theorem normalizeBug_amended_witness :
    (normalizeBug "smoke" exSevBug2).bugId
        = shortHash ("smoke" ++ ":" ++ normTitle "smoke" exSevBug2) ∧
    (normalizeBug "smoke" exSevBug2).bugId = (normalizeBug "smoke" exSevBug3).bugId ∧
    (normalizeBug "smoke" exSevBug2).bugId.length = 12 ∧
    (normalizeBug "smoke" exSevBug2).confidence = 70 ∧
    (normalizeBug "smoke" exSevBug2).severity = "high" := by
  have h := normalizeBug_amended "smoke" exSevBug2 exSevBug3
  exact ⟨h.1, h.2.1 (by decide), h.2.2.1, h.2.2.2.1, h.2.2.2.2.2 "high" rfl⟩

/-! ## Claim C5 -/

theorem filterMap_if_length {α β : Type} (p : α → Bool) (f : α → β) (l : List α) :
    (l.filterMap fun r => if p r then some (f r) else none).length
      = (l.filter p).length := by
  induction l with
  | nil => rfl
  | cons x xs ih =>
    by_cases hp : p x = true
    · simp [List.filterMap_cons, List.filter_cons, hp, ih]
    · simp [List.filterMap_cons, List.filter_cons, hp, ih]

theorem strTake_length_le (s : String) (n : Nat) : (strTake s n).length ≤ n := by
  show (String.mk (s.data.take n)).length ≤ n
  have h1 : (String.mk (s.data.take n)).length = (s.data.take n).length := rfl
  rw [h1, List.length_take]
  exact Nat.min_le_left n _

/-- C5: on every report, the fallback extractor emits exactly one bug per
failed or timed-out result and none for results with any other status, and
every emitted bug has severity major, the fixed expected text, the fixed
follow-up text, a title of at most 200 characters and a non-empty actual
text of at most 500 characters. -/
theorem fallback_extractor_count :
    ∀ (data : Report) (suite : String),
      (extractBugs (some data) suite).length = countFailedResults data ∧
      ∀ b ∈ extractBugs (some data) suite,
        b.severity = some "major" ∧
        b.expected = some "Test should pass" ∧
        b.suggestedFix = some "Review the test failure and fix the underlying issue" ∧
        (∃ t, b.title = some t ∧ t.length ≤ 200) ∧
        (∃ a, b.actual = some a ∧ a ≠ "" ∧ a.length ≤ 500) := by
  intro data suite
  constructor
  · simp [extractBugs, countFailedResults, List.length_flatMap,
      filterMap_if_length, Function.comp_def]
  · intro b hb
    simp only [extractBugs, List.mem_flatMap, List.mem_filterMap] at hb
    obtain ⟨su, _, sp, _, t, _, r, _, hr⟩ := hb
    by_cases hf : isFailedStatus r = true
    · rw [if_pos hf] at hr
      obtain rfl : mkFallbackBug suite sp t r = b := Option.some.inj hr
      refine ⟨rfl, rfl, rfl, ⟨_, rfl, strTake_length_le _ 200⟩, ⟨_, rfl, ?_, ?_⟩⟩
      · by_cases hm : firstErrorMsg r = ""
        · rw [if_pos hm]
          intro hcon
          have h2 := congrArg String.length hcon
          rw [String.length_append] at h2
          have h3 : "Test ".length = 5 := rfl
          have h4 : "".length = 0 := rfl
          omega
        · rw [if_neg hm]
          intro hcon
          apply hm
          have hd := congrArg String.data hcon
          have hnil : (firstErrorMsg r).data.take 500 = [] := hd
          rcases List.take_eq_nil_iff.mp hnil with h5 | h0
          · exact absurd h5 (by decide)
          · calc firstErrorMsg r = String.mk (firstErrorMsg r).data := rfl
              _ = String.mk [] := by rw [h0]
              _ = "" := rfl
      · by_cases hm : firstErrorMsg r = ""
        · rw [if_pos hm]
          have hst : r.stat = some "failed" ∨ r.stat = some "timedOut" := by
            simp only [isFailedStatus, Bool.or_eq_true, beq_iff_eq] at hf
            exact hf
          rcases hst with hst | hst <;> rw [hst] <;> decide
        · rw [if_neg hm]
          exact strTake_length_le _ 500
    · rw [if_neg hf] at hr
      cases hr

/-- A failed result with an error message and one attachment. -/
def exRes1 : PWResult :=
  { stat := some "failed", errorMessage := some "boom", errors := [],
    attachments := [{ path := some "t.zip" }] }

/-- A timed-out result whose message sits in the errors array. -/
def exRes2 : PWResult :=
  { stat := some "timedOut", errorMessage := none,
    errors := [{ message := some "slow" }], attachments := [] }

/-- A passing result. -/
def exResPass : PWResult :=
  { stat := some "passed", errorMessage := none, errors := [], attachments := [] }

def exTest : PWTest :=
  { title := some "shows error", results := [exRes1, exResPass, exRes2] }

def exSpec : PWSpec :=
  { title := some "Login", file := some "login.spec.ts", tests := [exTest] }

def exReport : Report := { suites := [{ specs := [exSpec] }] }

/-- Witness for C5 on a report with two failing and one passing result. -/
theorem fallback_extractor_count_witness :
    (extractBugs (some exReport) "smoke").length = countFailedResults exReport ∧
    (mkFallbackBug "smoke" exSpec exTest exRes1).severity = some "major" ∧
    (∃ a, (mkFallbackBug "smoke" exSpec exTest exRes1).actual = some a ∧
      a ≠ "" ∧ a.length ≤ 500) := by
  refine ⟨(fallback_extractor_count exReport "smoke").1, ?_, ?_⟩
  · exact ((fallback_extractor_count exReport "smoke").2 _ (by decide)).1
  · exact ((fallback_extractor_count exReport "smoke").2 _ (by decide)).2.2.2.2

/-! ## Claim C6 -/

/-- C6: a failing triage call for a not-ok suite is caught locally and
replaced by the deterministic fallback extractor, and triage failures
never make the run fail: whenever every other fallible call succeeds, the
run ends succeeded for every triage behaviour whatsoever, the failing ones
included. -/
theorem triage_failure_recovered :
    (∀ (env : Env) (sr : SuiteRes) (e : Exn),
      sr.ok = false → env.triage sr.suite = .error e →
      (triageSuite env sr).1
        = (extractBugs sr.report sr.suite).map (normalizeBug sr.suite)) ∧
    (∀ (env : Env) (db : DB) (runId : String) (run : RunRow) (a : Analysis)
      (n : Nat) (s1 s2 : SuiteRes),
      findRun db runId = some run →
      env.cloneExn = none → env.analyze = .ok a → env.generate = .ok n →
      env.runSmoke = .ok s1 → env.runRegression = .ok s2 → env.csvExn = none →
      (∀ b : NBug, ∃ r, env.fileIssue b = .ok r) →
      ∃ db' evs run', processRun env db runId = (db', evs) ∧
        findRun db' runId = some run' ∧ run'.stat = "succeeded") := by
  constructor
  · intro env sr e hok htr
    simp [triageSuite, hok, htr]
  · intro env db runId run a n s1 s2 h hcl ha hg h1 h2 hcsv hall
    have hid1 : (mkRunning env run).id = runId := by
      rw [mkRunning_id, findRun_some_id h]
    obtain ⟨srs, bugs, evs, hp⟩ :
        ∃ srs bugs evs, phase1 env (mkRunning env run) = .ok (srs, bugs, evs) :=
      phase1_ok hcl ha hg h1 h2
    obtain ⟨d4, evs2, hq⟩ :
        ∃ d evs2, issuePhase env
          (addArtifact (addBugs (updateRun db (mkRunning env run)) runId bugs) runId)
          runId (mkRunning env run) bugs = .ok (d, evs2) :=
      issuePhase_ok_exists hall
    have heq := processRun_eq_success h hp hcsv hq
    have hdb4 : findRun d4 runId = some (mkRunning env run) := by
      rw [findRun_eq_of_runs (issuePhase_runs_ok hq),
        findRun_eq_of_runs (runs_addArtifact _ _),
        findRun_eq_of_runs (runs_addBugs _ _ _)]
      exact findRun_updateRun h hid1
    exact ⟨_, _, succRow env (mkRunning env run) srs bugs, heq,
      findRun_updateRun hdb4 (by rw [succRow_id, hid1]), rfl⟩

/-- The C6 scenario: the smoke suite fails and the triage call raises;
everything else succeeds. -/
def exEnvTriFail : Env :=
  { exEnvOk with
    runSmoke := .ok exFailSuite
    triage := fun _ => .error (.other "claude down") }

/-- Witness for C6. -/
theorem triage_failure_recovered_witness :
    ((triageSuite exEnvTriFail exFailSuite).1
      = (extractBugs exFailSuite.report "smoke").map (normalizeBug "smoke")) ∧
    (∃ db' evs run', processRun exEnvTriFail exDb "r1" = (db', evs) ∧
      findRun db' "r1" = some run' ∧ run'.stat = "succeeded") :=
  ⟨triage_failure_recovered.1 exEnvTriFail exFailSuite (.other "claude down") rfl rfl,
   triage_failure_recovered.2 exEnvTriFail exDb "r1" exRunQueued { startRepr := "s" } 2
     exFailSuite exOkSuite (by rfl) rfl rfl rfl rfl rfl rfl
     (fun b => ⟨{ created := true, url := "" }, rfl⟩)⟩

/-! ## Claim C7 -/

/-- A probe observation that is not a non-server-error response: either
the request raised or a 5xx status came back. -/
def probeBad : Option Nat → Bool
  | none => true
  | some c => 500 ≤ c

/-- C7: whenever the application subprocess was started, the finally
clause has terminated it on every exit path of run_suite; and if no probe
within the readiness window observes a non-server-error response,
run_suite raises without ever executing the test runner. -/
theorem run_suite_readiness_cleanup :
    ∀ (env : RSEnv) (suite : String),
      ((runSuite env suite).serverStarted = true →
        (runSuite env suite).serverCleaned = true) ∧
      ((∀ p ∈ env.probes, probeBad p = true) →
        (runSuite env suite).testExecuted = false ∧
        ∃ e, (runSuite env suite).result = Except.error e) := by
  intro env suite
  have hcore : ∀ hw : waitHttpOk env.probes = false,
      (runSuite env suite).testExecuted = false ∧
      ∃ e, (runSuite env suite).result = Except.error e := by
    intro hw
    unfold runSuite
    repeat' split
    all_goals simp_all
  constructor
  · unfold runSuite
    repeat' split
    all_goals simp
  · intro hpr
    have hw : waitHttpOk env.probes = false := by
      rw [waitHttpOk, List.any_eq_false]
      intro p hp
      have := hpr p hp
      cases p with
      | none => simp
      | some c =>
        simp only [probeBad] at this
        simp only [decide_eq_true_eq] at this ⊢
        omega
    exact hcore hw

/-- An environment whose readiness probes all raise or return 5xx. -/
def exRSEnv : RSEnv :=
  { pkgJsonExists := true, uiInstallExn := none, overrideCmd := none,
    scripts := ["dev"], probes := [none, some 500, some 503],
    pwCwdExists := true, pwPkgJsonExists := false, testsInstallExn := none,
    testExit := 0 }

/-- Witness for C7: the server is started, the probes never succeed, the
call raises before test execution and the server is terminated. -/
theorem run_suite_readiness_cleanup_witness :
    (runSuite exRSEnv "smoke").serverCleaned = true ∧
    (runSuite exRSEnv "smoke").testExecuted = false ∧
    ∃ e, (runSuite exRSEnv "smoke").result = Except.error e :=
  ⟨(run_suite_readiness_cleanup exRSEnv "smoke").1 (by decide),
   ((run_suite_readiness_cleanup exRSEnv "smoke").2 (by decide)).1,
   ((run_suite_readiness_cleanup exRSEnv "smoke").2 (by decide)).2⟩

/-! ## Claim C8 -/

/-- C8: calling start while the previously started worker process is still
alive returns the rejection dict with success false rather than raising,
and leaves the whole manager state, so the stored process handle, its pid
and the start time, exactly unchanged. -/
theorem worker_start_rejects_when_running :
    ∀ (wm : WMState) (env : WMEnv) (mode : String) (p : WMProc),
      wm.process = some p →
      wmStart wm true env mode =
        ({ success := false, error := some "Worker is already running",
           pid := none, modeOut := none, logsOut := none }, wm) := by
  intro wm env mode p hp
  unfold wmStart getStatus
  rw [hp]
  simp

/-- A manager state with a live worker. -/
def exWM : WMState :=
  { process := some { pid := 41 }, mode := "local", startTime := some 5,
    logs := ["a", "b"] }

def exWMEnv : WMEnv :=
  { now := 100, venvExists := true, celeryInVenv := true,
    spawn := .ok 42, exitedImmediately := false }

/-- Witness for C8. -/
theorem worker_start_rejects_when_running_witness :
    wmStart exWM true exWMEnv "docker" =
      ({ success := false, error := some "Worker is already running",
         pid := none, modeOut := none, logsOut := none }, exWM) :=
  worker_start_rejects_when_running exWM exWMEnv "docker" { pid := 41 } (by rfl)

/-! ## Claim C9 -/

theorem deliveredAux_no_sub (sid : Nat) :
    ∀ (h : List BusOp) (act : List (Nat × String)),
      (∀ q ∈ act, q.1 ≠ sid) → subPoint h sid = none →
      deliveredAux sid h act = [] := by
  intro h
  induction h with
  | nil => intro act _ _; rfl
  | cons op rest ih =>
    intro act ha hs
    cases op with
    | publish r e =>
      have hs' : subPoint rest sid = none := by
        simp only [subPoint, Option.map_eq_none'] at hs
        exact hs
      have hact : (act.any fun q => q.1 == sid && q.2 == r) = false := by
        rw [List.any_eq_false]
        intro q hq
        simp only [Bool.and_eq_true, beq_iff_eq, not_and]
        intro hq1
        exact absurd hq1 (ha q hq)
      simp only [deliveredAux, hact, Bool.false_eq_true, if_false, List.nil_append]
      exact ih act ha hs'
    | subscribe s r =>
      by_cases hss : s = sid
      · exfalso
        simp [subPoint, hss] at hs
      · have hs' : subPoint rest sid = none := by
          simp only [subPoint, hss, if_false, Option.map_eq_none'] at hs
          exact hs
        have ha' : ∀ q ∈ act ++ [(s, r)], q.1 ≠ sid := by
          intro q hq
          rcases List.mem_append.mp hq with h1 | h2
          · exact ha q h1
          · simp only [List.mem_singleton] at h2
            rw [h2]
            exact hss
        simp only [deliveredAux]
        exact ih _ ha' hs'

theorem deliveredAux_after_sub (sid : Nat) :
    ∀ (h : List BusOp) (act : List (Nat × String)) (r : String),
      noSubOf h sid →
      (∀ q ∈ act, q.1 = sid → q.2 = r) →
      ((sid, r) ∈ act) →
      deliveredAux sid h act = publishesTo h r := by
  intro h
  induction h with
  | nil => intro act r _ _ _; rfl
  | cons op rest ih =>
    intro act r hns hch hm
    cases op with
    | publish r' e =>
      have hns' : noSubOf rest sid := by
        intro s rr hmem
        exact hns s rr (List.mem_cons_of_mem _ hmem)
      by_cases hr : r' = r
      · subst hr
        have hact : (act.any fun q => q.1 == sid && q.2 == r') = true := by
          rw [List.any_eq_true]
          exact ⟨(sid, r'), hm, by simp⟩
        simp only [deliveredAux, hact, if_true]
        rw [ih act r' hns' hch hm]
        simp [publishesTo, List.filterMap_cons]
      · have hact : (act.any fun q => q.1 == sid && q.2 == r') = false := by
          rw [List.any_eq_false]
          intro q hq
          simp only [Bool.and_eq_true, beq_iff_eq, not_and]
          intro hq1
          rw [hch q hq hq1]
          intro hcon
          exact hr hcon.symm
        simp only [deliveredAux, hact, Bool.false_eq_true, if_false, List.nil_append]
        rw [ih act r hns' hch hm]
        simp [publishesTo, List.filterMap_cons, hr]
    | subscribe s rr =>
      have hssid : s ≠ sid := hns s rr (List.mem_cons_self _ _)
      have hns' : noSubOf rest sid := by
        intro s' rr' hmem
        exact hns s' rr' (List.mem_cons_of_mem _ hmem)
      have hch' : ∀ q ∈ act ++ [(s, rr)], q.1 = sid → q.2 = r := by
        intro q hq hq1
        rcases List.mem_append.mp hq with h1 | h2
        · exact hch q h1 hq1
        · simp only [List.mem_singleton] at h2
          rw [h2] at hq1
          exact absurd hq1 hssid
      have hm' : (sid, r) ∈ act ++ [(s, rr)] := List.mem_append_left _ hm
      simp only [deliveredAux]
      rw [ih _ r hns' hch' hm']
      simp [publishesTo, List.filterMap_cons]

theorem deliveredAux_subPoint (sid : Nat) :
    ∀ (h : List BusOp) (act : List (Nat × String)) (i : Nat) (r : String),
      (∀ q ∈ act, q.1 ≠ sid) →
      subsOnce h sid →
      subPoint h sid = some (i, r) →
      deliveredAux sid h act = publishesTo (h.drop (i + 1)) r := by
  intro h
  induction h with
  | nil =>
    intro act i r _ _ hs
    simp [subPoint] at hs
  | cons op rest ih =>
    intro act i r hact honce hs
    cases op with
    | publish r' e =>
      obtain ⟨⟨i', r''⟩, hsp, hpair⟩ := Option.map_eq_some'.mp hs
      simp only [Prod.mk.injEq] at hpair
      have hanone : (act.any fun q => q.1 == sid && q.2 == r') = false := by
        rw [List.any_eq_false]
        intro q hq
        simp only [Bool.and_eq_true, beq_iff_eq, not_and]
        intro hq1
        exact absurd hq1 (hact q hq)
      have honce' : subsOnce rest sid := by
        simp only [subsOnce, List.filter_cons] at honce ⊢
        exact honce
      have hrec := ih act i' r'' hact honce' hsp
      simp only [deliveredAux, hanone, Bool.false_eq_true, if_false, List.nil_append]
      rw [hrec, ← hpair.1, hpair.2]
      rfl
    | subscribe s rr =>
      by_cases hss : s = sid
      · have hzero : i = 0 ∧ rr = r := by
          simp only [subPoint, hss, if_pos, Option.some.injEq, Prod.mk.injEq] at hs
          exact ⟨hs.1.symm, hs.2⟩
        have hnone : noSubOf rest sid := by
          intro s' r' hmem hs'
          have hmemf : BusOp.subscribe s' r' ∈ rest.filter fun op =>
              match op with
              | .subscribe s _ => s == sid
              | .publish _ _ => false := by
            apply List.mem_filter.mpr
            exact ⟨hmem, by simp [hs']⟩
          have hpos : 0 < (rest.filter fun op =>
              match op with
              | .subscribe s _ => s == sid
              | .publish _ _ => false).length :=
            List.length_pos.mpr (List.ne_nil_of_mem hmemf)
          simp only [subsOnce, List.filter_cons, hss, beq_self_eq_true, if_pos,
            List.length_cons] at honce
          omega
        have hch : ∀ q ∈ act ++ [(s, rr)], q.1 = sid → q.2 = r := by
          intro q hq hq1
          rcases List.mem_append.mp hq with h1 | h2
          · exact absurd hq1 (hact q h1)
          · simp only [List.mem_singleton] at h2
            rw [h2]
            exact hzero.2
        have hm : (sid, r) ∈ act ++ [(s, rr)] := by
          apply List.mem_append_right
          simp [hss, hzero.2]
        have := deliveredAux_after_sub sid rest (act ++ [(s, rr)]) r hnone hch hm
        simp only [deliveredAux]
        rw [this, hzero.1]
        rfl
      · obtain ⟨⟨i', r''⟩, hsp, hpair⟩ :
            ∃ p, subPoint rest sid = some p ∧ (p.1 + 1, p.2) = (i, r) := by
          simp only [subPoint, hss, if_neg, ite_false, Option.map_eq_some'] at hs
          exact hs
        simp only [Prod.mk.injEq] at hpair
        have hact' : ∀ q ∈ act ++ [(s, rr)], q.1 ≠ sid := by
          intro q hq
          rcases List.mem_append.mp hq with h1 | h2
          · exact hact q h1
          · simp only [List.mem_singleton] at h2
            rw [h2]
            exact hss
        have honce' : subsOnce rest sid := by
          simp only [subsOnce, List.filter_cons] at honce ⊢
          have hbb : (s == sid) = false := by
            simp [hss]
          simp only [hbb, Bool.false_eq_true, if_false] at honce
          exact honce
        have hrec := ih (act ++ [(s, rr)]) i' r'' hact' honce' hsp
        simp only [deliveredAux]
        rw [hrec, ← hpair.1, hpair.2]
        rfl

/-- C9: a subscriber that subscribes only after an event was published on
its run id channel never observes it, and a subscriber subscribed before
observes exactly the frames later published to the channel, in publish
order: with at most one subscribe operation per subscriber, its delivered
sequence is precisely the list of publishes to its channel strictly after
the subscription point, and a subscriber that never subscribed receives
nothing. -/
theorem event_bus_no_replay_order :
    ∀ (h : List BusOp) (sid : Nat),
      (subPoint h sid = none → delivered h sid = []) ∧
      (∀ i r, subsOnce h sid → subPoint h sid = some (i, r) →
        delivered h sid = publishesTo (h.drop (i + 1)) r) := by
  intro h sid
  constructor
  · intro hs
    exact deliveredAux_no_sub sid h [] (by simp) hs
  · intro i r honce hs
    exact deliveredAux_subPoint sid h [] i r (by simp) honce hs

def evA : Event := Event.log "info" none "a"

def evB : Event := Event.log "info" none "b"

def evC : Event := Event.log "info" none "c"

/-- A trace: one publish before subscriber 7 subscribes to channel r1,
then two publishes on r1 and one on another channel. -/
def exTrace : List BusOp :=
  [BusOp.publish "r1" evA, BusOp.subscribe 7 "r1", BusOp.publish "r1" evB,
   BusOp.publish "r2" evC, BusOp.publish "r1" evC]

/-- Witness for C9: subscriber 7 receives exactly the two frames published
on its channel after its subscription, and the never-subscribed subscriber
9 receives nothing. -/
theorem event_bus_no_replay_order_witness :
    delivered exTrace 7 = publishesTo (exTrace.drop 2) "r1" ∧
    delivered exTrace 9 = [] :=
  ⟨(event_bus_no_replay_order exTrace 7).2 1 "r1" (by decide) (by decide),
   (event_bus_no_replay_order exTrace 9).1 (by decide)⟩
